import Mathlib

/-!
Shallow embedding of the data-derivation core of a service-repair dashboard
(`app.py`): header normalization, field cleaning (text and date), status
grouping, business-day windows, TAT aggregation, trend arrows, and the
SPS pre-filter, together with theorems checking the specification's claims.

Conventions used throughout:
* Timestamps are rationals counting days since the spreadsheet serial epoch
  1899-12-30, so the serial-number fallback is the identity on day counts.
* A cell holding `pd.NA` is `Option.none`; `astype(str)` renders it as the
  literal string "<NA>".
* Python and pandas string primitives (`str.strip`, `str.casefold`, the
  regex classes `\s`, `\w` and the anchor `\b`) are modelled character by
  character for the Basic Latin and Latin-1 ranges, which cover the
  alphabet this application processes.
-/

namespace RetailRepair

/-- Python `str.isspace` characters (restricted to the Basic Latin / Latin-1
range): the whitespace class used by `str.strip`, `str.split` and the regex
class `\s`. Includes the no-break space U+00A0, which Python treats as
whitespace. -/
def isPySpace (c : Char) : Bool :=
  c = ' ' || c = '\t' || c = '\n' || c = '\x0b' || c = '\x0c' || c = '\r' ||
  c = '\u0085' || c = '\u00A0'

/-- Python `str.strip()` over the modelled whitespace class. -/
def pyStrip (s : String) : String :=
  ⟨((s.data.dropWhile fun c => isPySpace c).reverse.dropWhile fun c => isPySpace c).reverse⟩

/-- Python `str.casefold` restricted to Basic Latin and Latin-1: ASCII
uppercase letters and the Latin-1 uppercase letters À–Þ (except ×) map to
their lowercase forms 32 code points higher; all other characters are
unchanged. -/
def caseFoldChar (c : Char) : Char :=
  if 'A' ≤ c ∧ c ≤ 'Z' then Char.ofNat (c.toNat + 32)
  else if 0xC0 ≤ c.toNat ∧ c.toNat ≤ 0xDE ∧ c.toNat ≠ 0xD7 then Char.ofNat (c.toNat + 32)
  else c

/-- Python `str.casefold` applied character by character. -/
def pyCaseFold (s : String) : String := ⟨s.data.map caseFoldChar⟩

/-- Python regex `\w` (word character) restricted to Basic Latin and
Latin-1: ASCII alphanumerics, the underscore, and the Latin-1 letters
(ª, µ, º and À–ÿ except × and ÷). -/
def isWordChar (c : Char) : Bool :=
  c.isAlphanum || c = '_' ||
  (0xC0 ≤ c.toNat && c.toNat ≤ 0xFF && c.toNat != 0xD7 && c.toNat != 0xF7) ||
  c.toNat = 0xAA || c.toNat = 0xB5 || c.toNat = 0xBA

/-- Collapse every run of whitespace characters to a single space: the
effect of the regex replacement of `\s+` by one space in
`clean_date_series`, and (together with end trimming) of
`" ".join(x.split())` in `norm_header`. -/
def collapseWs : List Char → List Char
  | [] => []
  | [c] => if isPySpace c then [' '] else [c]
  | c :: d :: rest =>
    if isPySpace c then
      (if isPySpace d then collapseWs (d :: rest)
       else ' ' :: collapseWs (d :: rest))
    else c :: collapseWs (d :: rest)

/-- The header scrub `norm_header` from `fetch_data`: no-break space to
plain space, zero-width space and BOM removed, internal whitespace runs
collapsed to single spaces, ends trimmed. -/
def normHeader (s : String) : String :=
  let step1 := s.data.map fun c => if c = '\u00A0' then ' ' else c
  let step2 := step1.filter fun c => c != '\u200B' && c != '\uFEFF'
  pyStrip ⟨collapseWs step2⟩

/-- The text scrub at the start of `clean_date_series`: no-break space to
plain space, zero-width space and BOM removed, commas to spaces, whitespace
runs collapsed, ends trimmed. -/
def scrubDateText (s : String) : String :=
  let step1 := s.data.map fun c => if c = '\u00A0' then ' ' else c
  let step2 := step1.filter fun c => c != '\u200B' && c != '\uFEFF'
  let step3 := step2.map fun c => if c = ',' then ' ' else c
  pyStrip ⟨collapseWs step3⟩

/-- The string `astype(str)` produces for a cell: a missing (`pd.NA`) cell
renders as the literal text "<NA>", a present cell as itself. -/
def cellStr : Option String → String
  | none => "<NA>"
  | some s => s

/-- Gregorian leap-year test. -/
def isLeapYear (y : ℕ) : Bool := (y % 4 == 0 && y % 100 != 0) || y % 400 == 0

/-- Number of days in month `m` of year `y`. -/
def daysInMonth (y m : ℕ) : ℕ :=
  if m = 2 then (if isLeapYear y then 29 else 28)
  else if m = 4 ∨ m = 6 ∨ m = 9 ∨ m = 11 then 30
  else 31

/-- Days in the months of year `y` strictly before month `m`. -/
def daysBeforeMonth (y m : ℕ) : ℕ :=
  (List.range (m - 1)).foldl (fun acc k => acc + daysInMonth y (k + 1)) 0

/-- Day index of the civil date `y-m-d`, counting 0001-01-01 as day 0 in
the proleptic Gregorian calendar. -/
def rataDie (y m d : ℕ) : ℕ :=
  365 * (y - 1) + (y - 1) / 4 - (y - 1) / 100 + (y - 1) / 400 + daysBeforeMonth y m + (d - 1)

/-- Timestamp (days since 1899-12-30, the spreadsheet serial epoch) of a
civil date. -/
def serialOfYMD (y m d : ℕ) : ℤ :=
  (rataDie y m d : ℤ) - (rataDie 1899 12 30 : ℤ)

/-- Digits-only reading of a character list as a natural number. -/
def parseDigits : List Char → Option ℕ
  | [] => none
  | cs =>
    if cs.all Char.isDigit
    then some (cs.foldl (fun acc c => 10 * acc + (c.toNat - 48)) 0)
    else none

/-- Splitting of a character list at every occurrence of `sep`, matching
Python's `str.split(sep)` and Lean's `String.splitOn` for a one-character
separator: the empty list yields one empty piece. -/
def splitOnChar (sep : Char) : List Char → List (List Char)
  | [] => [[]]
  | c :: rest =>
    let r := splitOnChar sep rest
    if c = sep then [] :: r
    else
      match r with
      | [] => [[c]]
      | h :: t => (c :: h) :: t

/-- Unsigned decimal reading: an integer part and an optional fractional
part separated by a dot. -/
def parseUnsigned (cs : List Char) : Option ℚ :=
  match splitOnChar '.' cs with
  | [ip] => (parseDigits ip).map (fun n => (n : ℚ))
  | [ip, fp] =>
    if ip.isEmpty && fp.isEmpty then none
    else
      let ipn : Option ℕ := if ip.isEmpty then some 0 else parseDigits ip
      let fpn : Option ℕ := if fp.isEmpty then some 0 else parseDigits fp
      match ipn, fpn with
      | some i, some f => some ((i : ℚ) + (f : ℚ) / ((10 : ℚ) ^ fp.length))
      | _, _ => none
  | _ => none

/-- Reading of a scrubbed cell as a number, modelling `pd.to_numeric`
on the numeral shapes this data uses: an optional sign, a decimal integer
part and an optional fractional part. Anything else is not a number. -/
def parseNumber (s : String) : Option ℚ :=
  match s.data with
  | '+' :: rest => parseUnsigned rest
  | '-' :: rest => (parseUnsigned rest).map Neg.neg
  | _ => parseUnsigned s.data

/-- Calendar-validated day-month-year to timestamp conversion. -/
def dateFromDMY (d m y : ℕ) : Option ℚ :=
  if 1 ≤ m ∧ m ≤ 12 ∧ 1 ≤ d ∧ d ≤ daysInMonth y m ∧ 1 ≤ y ∧ y ≤ 9999
  then some ((serialOfYMD y m d : ℚ))
  else none

/-- Three numeric components joined by `sep`, read day-first (or year-first
when the leading component has four digits), with two-digit years mapped
into 1969–2068. -/
def parseSep (sep : Char) (s : String) : Option ℚ :=
  match splitOnChar sep s.data with
  | [a, b, c] =>
    match parseDigits a, parseDigits b, parseDigits c with
    | some x, some m, some z =>
      if a.length = 4 then dateFromDMY z m x
      else if a.length ≤ 2 ∧ b.length ≤ 2 then
        let y := if c.length ≤ 2 then (if z ≤ 68 then 2000 + z else 1900 + z) else z
        dateFromDMY x m y
      else none
    | _, _, _ => none
  | _ => none

/-- Day-first textual date parsing, modelling
`pd.to_datetime(..., dayfirst=True, errors="coerce")` on the date-only
forms this data uses: three numeric components joined by ".", "/" or "-",
read as day-month-year (year first when the leading component has four
digits), with full calendar validation. Returns the timestamp at midnight,
or `none` when the text is not such a date. -/
def parseDayfirst (s : String) : Option ℚ :=
  if (splitOnChar '.' s.data).length = 3 then parseSep '.' s
  else if (splitOnChar '/' s.data).length = 3 then parseSep '/' s
  else if (splitOnChar '-' s.data).length = 3 then parseSep '-' s
  else none

/-- The per-cell content of `clean_date_series` from `fetch_data`: scrub
the text, send the null-word tokens `""`, `"nan"`, `"None"`, `"NaN"`,
`"<NA>"` to missing, try day-first date parsing, then the
spreadsheet-serial fallback for numbers `n` with `20000 < n` and
`n < 60000` (the source's strict comparisons), else missing. -/
def clean_date_cell (cell : Option String) : Option ℚ :=
  let txt := scrubDateText (cellStr cell)
  if txt = "" ∨ txt = "nan" ∨ txt = "None" ∨ txt = "NaN" ∨ txt = "<NA>" then none
  else
    match parseDayfirst txt with
    | some t => some t
    | none =>
      match parseNumber txt with
      | some n => if 20000 < n ∧ n < 60000 then some n else none
      | none => none

/-- `clean_date_series` applied to a whole column. -/
def clean_date_series (col : List (Option String)) : List (Option ℚ) :=
  col.map clean_date_cell

/-- The display group all "waiting on external party" statuses collapse to. -/
def venterPhrase : String := "Venter på ekstern part"

/-- The casefolded literal the grouping regex anchors on. -/
def venterLow : String := "venter på ekstern part"

/-- Boolean prefix test on character lists. -/
def isPrefixOfChars : List Char → List Char → Bool
  | [], _ => true
  | _ :: _, [] => false
  | c :: cs, d :: ds => c == d && isPrefixOfChars cs ds

/-- Word-boundary test for the regex anchor `\b` placed right after a match
ending at the head of `rest`: the remainder is empty or starts with a
non-word character (the character before the anchor, "t", is a word
character). -/
def wordBoundaryAt (rest : List Char) : Bool :=
  match rest with
  | [] => true
  | c :: _ => !isWordChar c

/-- The regex test `str.match(r"^venter på ekstern part\b")` on an already
casefolded status: `re.match` anchors at the start of the string, so the
status must start with the literal text and continue with a word boundary. -/
def matchVenter (low : String) : Bool :=
  isPrefixOfChars venterLow.data low.data &&
  wordBoundaryAt (low.data.drop venterLow.data.length)

/-- The status grouping applied in the Inhouse view (lines 847–851):
statuses whose casefolded form matches `^venter på ekstern part\b` are
replaced by the literal "Venter på ekstern part"; every other status is
kept unchanged. -/
def status_group_inhouse (s : String) : String :=
  if matchVenter (pyCaseFold s) then venterPhrase else s

/-- The status grouping applied in the worked-on-today view
(lines 933–935). -/
def status_group_workedon (s : String) : String :=
  if matchVenter (pyCaseFold s) then venterPhrase else s

/-- The status grouping applied in the per-brand Kunder view
(lines 1269–1271). -/
def status_group_kunder (s : String) : String :=
  if matchVenter (pyCaseFold s) then venterPhrase else s

/-- The six null-word tokens replaced by the module-level `_clean_text`
(and by `_counts_table`). -/
def nullTokens6 : List String := ["", "nan", "None", "NaN", "<NA>", "N/A"]

/-- The four tokens replaced by the view-local `_clean_text` helpers of the
Dashboard and Kunder views. -/
def nullTokens4 : List String := ["", "nan", "None", "NaN"]

/-- The module-level `_clean_text` (lines 368–379): missing values become
the placeholder before string coercion, the value is stripped, and the six
null-word tokens are replaced by the placeholder. -/
def clean_text_module (unknown : String) (x : Option String) : String :=
  let v := match x with
    | none => unknown
    | some s => s
  let t := pyStrip v
  if t ∈ nullTokens6 then unknown else t

/-- The view-local `_clean_text` defined inside the Dashboard view
(lines 531–533): plain string coercion (a missing value renders as "<NA>"),
strip, and replacement of only four null tokens. -/
def clean_text_dashboard (unknown : String) (x : Option String) : String :=
  let t := pyStrip (cellStr x)
  if t ∈ nullTokens4 then unknown else t

/-- The view-local `_clean_text` defined inside the Kunder view
(lines 1209–1211), textually identical to the Dashboard one. -/
def clean_text_kunder (unknown : String) (x : Option String) : String :=
  let t := pyStrip (cellStr x)
  if t ∈ nullTokens4 then unknown else t

/-- The KPI trend arrow and color helper `_trend_arrow_color` (defined
identically in the Dashboard view, lines 540–547, and the Kunder view,
lines 1218–1223). The threshold `eps` is a parameter supplied by each call
site. -/
def trend_arrow_color (delta : ℚ) (goodWhenUp : Bool) (eps : ℚ) : String × String :=
  if delta > eps then ("↑", if goodWhenUp then "green" else "red")
  else if delta < -eps then ("↓", if goodWhenUp then "red" else "green")
  else ("→", "gray")

/-- Weekday of a timeline day (0 = Monday … 6 = Sunday). Day 0 of the
timeline, 1899-12-30, was a Saturday, hence the offset 5. -/
def weekday (d : ℤ) : ℤ := (d + 5) % 7

/-- Monday-to-Friday test: the business-day calendar used by
`pd.bdate_range` (no holiday calendar). -/
def isBusinessDay (d : ℤ) : Prop := weekday d < 5

instance (d : ℤ) : Decidable (isBusinessDay d) := by
  unfold isBusinessDay; infer_instance

/-- The most recent business day on or before `d`: Saturdays step back one
day, Sundays two. -/
def latestBdayLE (d : ℤ) : ℤ :=
  if weekday d = 5 then d - 1 else if weekday d = 6 then d - 2 else d

/-- The `n` most recent business days on or before `e`, most recent
first. -/
def lbdDesc : ℤ → ℕ → List ℤ
  | _, 0 => []
  | e, n + 1 => latestBdayLE e :: lbdDesc (latestBdayLE e - 1) n

/-- `_last_business_days` (lines 535–538, repeated in the Kunder view):
the window `pd.bdate_range(end=end_ts, periods=n)` as an ascending list of
days, i.e. the `n` most recent business days ending on or before `end_ts`. -/
def last_business_days (e : ℤ) (n : ℕ) : List ℤ := (lbdDesc e n).reverse

/-- The previous comparison window (lines 565–566 and 1256–1257):
`_last_business_days` re-run ending one calendar day before the first day
of the current window (`pd.Timestamp(last_30_bd[0]) - pd.Timedelta(days=1)`). -/
def prev_business_days (e : ℤ) (n : ℕ) : List ℤ :=
  last_business_days ((last_business_days e n).headD 0 - 1) n

/-- One row of the cleaned Record Table produced by `fetch_data`: the text
columns have been coerced to strings (a missing value renders as "<NA>")
and the date columns to optional timestamps. -/
structure Ticket where
  status : String
  brand : String
  tech : String
  priority : String
  number : String
  statusDate : Option ℚ
  repairDate : Option ℚ
  receivedDate : Option ℚ
deriving Repr, DecidableEq

/-- Model of `pd.to_datetime(col, errors="coerce")` applied to a column
already cleaned to datetimes by `clean_date_series`: the identity. -/
def to_datetime_again (x : Option ℚ) : Option ℚ := x

/-- The Inhouse view's base selection (line 844):
`df[df["Service repair date"].isna()]`. -/
def inhouse (tbl : List Ticket) : List Ticket :=
  tbl.filter fun t => t.repairDate.isNone

/-- The Kunder view's base selection (line 1203):
`df[pd.to_datetime(df["Service repair date"], errors="coerce").isna()]`. -/
def kunder_base (tbl : List Ticket) : List Ticket :=
  tbl.filter fun t => (to_datetime_again t.repairDate).isNone

/-- The Kunder view's per-brand open-case selection (line 1262): brand
equality after the view-local cleaning and casefolding, and absence of a
repair date. -/
def kunder_brand_open (tbl : List Ticket) (brand : String) : List Ticket :=
  tbl.filter fun t =>
    pyCaseFold (clean_text_kunder "Ukjent" (some t.brand)) == pyCaseFold brand &&
    (to_datetime_again t.repairDate).isNone

/-- `avg_tat_days` (lines 317–338): mean turn-around time in days over the
rows that have a received date, ending at the repair date when present and
at `end_day` otherwise, keeping only non-negative values; 0.0 when nothing
remains. (After the received-date filter the `getD 0` default of
`receivedDate` is never consulted.) -/
def avg_tat_days (rows : List Ticket) (endDay : ℚ) : ℚ :=
  if rows.isEmpty then 0
  else
    let d := rows.filter fun t => t.receivedDate.isSome
    if d.isEmpty then 0
    else
      let tats := d.map fun t => (t.repairDate.getD endDay) - t.receivedDate.getD 0
      let kept := tats.filter fun x => decide (0 ≤ x)
      if kept.isEmpty then 0 else kept.sum / (kept.length : ℚ)

/-- `_avg_tat_closed_days` (lines 604–609, repeated in the Kunder view):
mean of repair-minus-received over a subset already filtered to rows with
both dates present, keeping non-negative values; 0.0 when nothing
remains. -/
def avg_tat_closed_days (rows : List Ticket) : ℚ :=
  if rows.isEmpty then 0
  else
    let tats := rows.map fun t => t.repairDate.getD 0 - t.receivedDate.getD 0
    let kept := tats.filter fun x => decide (0 ≤ x)
    if kept.isEmpty then 0 else kept.sum / (kept.length : ℚ)

/-- The SPS pre-filter (lines 386–393): the shared dataset `df` consumed by
every view keeps exactly the rows whose priority, stripped and casefolded,
differs from "sps". -/
def sps_filter (raw : List Ticket) : List Ticket :=
  raw.filter fun t => pyCaseFold (pyStrip t.priority) != "sps"

/-- Open / in-house as the specification words it: the repair date is
absent. This is the claim-side predicate the view selections are compared
against. -/
def OpenTicket (t : Ticket) : Prop := t.repairDate = none

instance (t : Ticket) : Decidable (OpenTicket t) := by
  unfold OpenTicket; infer_instance

/-- Specification-side per-ticket TAT: tickets without a received date
contribute nothing; the end instant is the repair date when present, else
the as-of instant; negative values are dropped. -/
def validTat (endDay : ℚ) (t : Ticket) : Option ℚ :=
  match t.receivedDate with
  | none => none
  | some r =>
    let tat := (match t.repairDate with | some p => p | none => endDay) - r
    if 0 ≤ tat then some tat else none

/-- Specification-side mean TAT: the arithmetic mean of the valid
per-ticket TAT values, 0.0 when there are none. -/
def meanTatSpec (rows : List Ticket) (endDay : ℚ) : ℚ :=
  let v := rows.filterMap (validTat endDay)
  if v.isEmpty then 0 else v.sum / (v.length : ℚ)

/-- The fixed list of expected canonical column names in `fetch_data`. -/
def expectedCols : List String :=
  ["Service status date", "Service status", "Service repair date",
   "Service date product received", "Product brand", "Service technician",
   "Service priority", "Service number"]

/-- A raw tabular frame: header labels and rows of optional string cells. -/
structure Frame where
  headers : List String
  rows : List (List (Option String))
deriving Repr

/-- Model of `pd.DataFrame(rows, columns=headers)` for list-of-list data:
pandas raises a `ValueError` when the width of the data does not match the
number of column labels, so rows are required here to have exactly the
header row's length (the spreadsheet transport always delivers such a
rectangle; pandas additionally pads rows shorter than the widest one, a
case the rectangle requirement subsumes). -/
def makeFrame (headers : List String) (dataRows : List (List String)) : Except String Frame :=
  if dataRows.all fun r => decide (r.length = headers.length) then
    Except.ok { headers := headers, rows := dataRows.map fun r => r.map fun c => some c }
  else Except.error "DataFrame: columns passed and data width differ"

/-- The cleanup `df.replace("", pd.NA).dropna(how="all")`: empty cells
become missing and rows with every cell missing are dropped. -/
def dropEmptyRows (f : Frame) : Frame :=
  let rows := f.rows.map fun r => r.map fun c => if c = some "" then none else c
  { headers := f.headers, rows := rows.filter fun r => !(r.all fun c => c.isNone) }

/-- The dictionary comprehension
`{norm_header(c).casefold(): c for c in df.columns}`: later insertions for
the same key overwrite earlier ones, so a key looks up the LAST column
whose normalized casefolded header equals it. -/
def colsNormLookup (headers : List String) (key : String) : Option String :=
  (headers.filter fun c => pyCaseFold (normHeader c) == key).getLast?

/-- One iteration of the case-insensitive rename loop (lines 200–205): if
the canonical name is not already a column and the dictionary holds a
case-insensitive match for it, every column literally named like the
dictionary entry is renamed to the canonical name. (The source builds the
dictionary once before the loop; looking it up against the current headers
is equivalent because the expected names target pairwise distinct
casefolded keys, so one iteration never adds or removes matches for
another's key.) -/
def renameStep (headers : List String) (wanted : String) : List String :=
  if wanted ∈ headers then headers
  else match colsNormLookup headers (pyCaseFold wanted) with
    | some old => headers.map fun h => if h = old then wanted else h
    | none => headers

/-- The full rename loop over the expected column list. -/
def renameHeaders (headers : List String) : List String :=
  expectedCols.foldl renameStep headers

/-- The synthesis loop (lines 207–210): every expected column absent after
renaming is appended as an all-missing column. -/
def addMissingCols (f : Frame) : Frame :=
  let missing := expectedCols.filter fun c => decide (c ∉ f.headers)
  { headers := f.headers ++ missing,
    rows := f.rows.map fun r => r ++ missing.map fun _ => (none : Option String) }

/-- Column selection `df[name]` as used by the cleaning loops, which apply
Series string methods to the result: with no matching column pandas raises
a `KeyError`, and with several matching columns (duplicate labels) it
returns a DataFrame on which the `.str` accessor of the cleaning code
raises an `AttributeError`; both are modelled as errors. -/
def getSeries (f : Frame) (name : String) : Except String (List (Option String)) :=
  if f.headers.count name = 1 then
    let i := f.headers.findIdx fun h => h == name
    Except.ok (f.rows.map fun r => r.getD i none)
  else if f.headers.count name = 0 then
    Except.error ("KeyError: " ++ name)
  else
    Except.error ("AttributeError: .str on duplicate columns " ++ name)

/-- The fetch-side text trim (lines 239–245): string coercion, no-break
space to plain space, strip. -/
def fetch_text_trim (c : Option String) : String :=
  pyStrip ⟨(cellStr c).data.map fun ch => if ch = '\u00A0' then ' ' else ch⟩

/-- The pure core of `fetch_data` after the transport: normalize headers,
build the frame, drop all-empty rows, rename case-insensitive header
matches onto the expected schema, synthesize absent expected columns as
all-missing, clean the three date columns, trim the five text columns, and
assemble the Record Table. -/
def fetch_data (values : List (List String)) : Except String (List Ticket) := do
  match values with
  | [] => Except.ok []
  | headerRow :: dataRows =>
    let headers := headerRow.map normHeader
    let f0 ← makeFrame headers dataRows
    let f1 := dropEmptyRows f0
    let f2 : Frame := { headers := renameHeaders f1.headers, rows := f1.rows }
    let f3 := addMissingCols f2
    let statusDates := clean_date_series (← getSeries f3 "Service status date")
    let repairDates := clean_date_series (← getSeries f3 "Service repair date")
    let receivedDates := clean_date_series (← getSeries f3 "Service date product received")
    let statuses := (← getSeries f3 "Service status").map fetch_text_trim
    let brands := (← getSeries f3 "Product brand").map fetch_text_trim
    let techs := (← getSeries f3 "Service technician").map fetch_text_trim
    let prios := (← getSeries f3 "Service priority").map fetch_text_trim
    let numbers := (← getSeries f3 "Service number").map fetch_text_trim
    Except.ok ((List.range f3.rows.length).map fun i =>
      { status := statuses.getD i "", brand := brands.getD i "",
        tech := techs.getD i "", priority := prios.getD i "",
        number := numbers.getD i "",
        statusDate := statusDates.getD i none,
        repairDate := repairDates.getD i none,
        receivedDate := receivedDates.getD i none })

/-- The calendar day of a timestamp (`Series.dt.date`): its floor. -/
def tsDay (t : ℚ) : ℤ := ⌊t⌋

/-- Claim-side predicate: the status, casefolded, begins with the literal
external-party phrase (plain prefix test, no boundary requirement). -/
def beginsWithVenter (s : String) : Prop :=
  isPrefixOfChars venterLow.data (pyCaseFold s).data = true

/-- Claim-side predicate: the casefolded status begins with the phrase and
continues with a word boundary (end of string or a non-word character). -/
def beginsWithVenterBoundary (s : String) : Prop :=
  beginsWithVenter s ∧
  wordBoundaryAt ((pyCaseFold s).data.drop venterLow.data.length) = true

instance (s : String) : Decidable (beginsWithVenter s) := by
  unfold beginsWithVenter; infer_instance

instance (s : String) : Decidable (beginsWithVenterBoundary s) := by
  unfold beginsWithVenterBoundary beginsWithVenter; infer_instance

/-- The header-matching key test of `fetch_data`: a source column `c`
matches the canonical name `w` when its normalized casefolded form equals
the casefolded canonical name. -/
def matchKey (c w : String) : Prop :=
  pyCaseFold (normHeader c) = pyCaseFold w

instance (c w : String) : Decidable (matchKey c w) := by
  unfold matchKey; infer_instance

/-- Proof helper: the end parameter from which `lbdDesc` would continue
after producing `n` business days, i.e. the day just before the oldest day
of the window. -/
def lbdSeed : ℤ → ℕ → ℤ
  | e, 0 => e
  | e, n + 1 => lbdSeed (latestBdayLE e - 1) n

/-! ## Theorems -/

/-- C1: within the shared (SPS-pre-filtered) Record Table, a ticket is
selected as open/in-house by the Inhouse view exactly when its cleaned
repair date is missing; the Kunder view's base selection is literally the
same list, so neither view double-counts nor omits a ticket relative to
this predicate; and the Kunder per-brand selection adds only a
brand-equality conjunct on top of the very same predicate — no other field
overrides it. -/
theorem C1_open_iff_repair_date_missing (tbl : List Ticket) (t : Ticket) (b : String) :
    (t ∈ inhouse tbl ↔ t ∈ tbl ∧ OpenTicket t) ∧
    kunder_base tbl = inhouse tbl ∧
    (t ∈ kunder_brand_open tbl b ↔
      t ∈ tbl ∧ pyCaseFold (clean_text_kunder "Ukjent" (some t.brand)) = pyCaseFold b ∧
        OpenTicket t) := by
  refine ⟨?_, rfl, ?_⟩
  · simp [inhouse, List.mem_filter, OpenTicket, Option.isNone_iff_eq_none]
  · simp [kunder_brand_open, List.mem_filter, OpenTicket, to_datetime_again,
      Option.isNone_iff_eq_none, Bool.and_eq_true, beq_iff_eq, and_assoc]

/-- Witness for C1 at a concrete open ticket. -/
theorem C1_open_iff_repair_date_missing_witness :
    (⟨"Innlevert", "Acme", "T", "std", "1", none, none, none⟩ : Ticket) ∈
      inhouse [⟨"Innlevert", "Acme", "T", "std", "1", none, none, none⟩] :=
  ((C1_open_iff_repair_date_missing _ _ "acme").1).mpr ⟨List.mem_singleton.mpr rfl, rfl⟩

/-- The source's regex test agrees with the claim-side
prefix-plus-boundary predicate. -/
theorem matchVenter_iff (s : String) :
    matchVenter (pyCaseFold s) = true ↔ beginsWithVenterBoundary s := by
  simp [matchVenter, beginsWithVenterBoundary, beginsWithVenter, Bool.and_eq_true]

/-- C4 counterexample: the status "Venter på ekstern parten" begins
case-insensitively with the literal prefix phrase, yet the grouper leaves
it unchanged (and different from the group value): the source regex
requires a word boundary after the phrase, so a status in which a word
character follows it is not grouped. -/
theorem C4_counterexample_no_boundary :
    beginsWithVenter "Venter på ekstern parten" ∧
    status_group_inhouse "Venter på ekstern parten" = "Venter på ekstern parten" ∧
    "Venter på ekstern parten" ≠ venterPhrase :=
  ⟨by decide, by decide, by decide⟩

/-- C4 amended: a cleaned status maps to the single group value
"Venter på ekstern part" when its casefolded form begins with that phrase
followed by a word boundary (end of string or a non-word character such as
":" or a space); every other status — including one where a word character
follows the phrase — maps to itself unchanged; and the in-house backlog,
worked-on-today and per-brand views apply the identical rule. -/
theorem C4_status_grouping (s : String) :
    (beginsWithVenterBoundary s → status_group_inhouse s = venterPhrase) ∧
    (¬ beginsWithVenterBoundary s → status_group_inhouse s = s) ∧
    status_group_workedon = status_group_inhouse ∧
    status_group_kunder = status_group_inhouse := by
  refine ⟨fun h => ?_, fun h => ?_, rfl, rfl⟩
  · unfold status_group_inhouse
    rw [if_pos ((matchVenter_iff s).mpr h)]
  · unfold status_group_inhouse
    rw [if_neg (fun hm => h ((matchVenter_iff s).mp hm))]

/-- Witness for C4 at a concrete grouped status. -/
theorem C4_status_grouping_witness :
    status_group_inhouse "Venter på ekstern part: deler" = venterPhrase :=
  (C4_status_grouping "Venter på ekstern part: deler").1 (by decide)

/-- C7 counterexample: the Dashboard view's local `_clean_text` replaces
neither the token "<NA>" (the rendering of an absent value) nor "N/A", so
not every text-cleaning call site replaces the full six-token set. -/
theorem C7_counterexample_local_cleaner :
    clean_text_dashboard "Ukjent" none = "<NA>" ∧
    clean_text_dashboard "Ukjent" (some "N/A") = "N/A" ∧
    "<NA>" ≠ "Ukjent" ∧ "N/A" ≠ "Ukjent" :=
  ⟨rfl, rfl, by decide, by decide⟩

/-- C7 amended: the module-level `_clean_text` replaces each of the six
null-word tokens "", "nan", "None", "NaN", "<NA>", "N/A" — and an absent
input — with the configured placeholder; the view-local cleaners of the
Dashboard and Kunder views (identical to each other) replace only the four
tokens "", "nan", "None", "NaN", leaving "<NA>" and "N/A" untouched. -/
theorem C7_text_cleaning (u : String) :
    clean_text_module u (some "") = u ∧
    clean_text_module u (some "nan") = u ∧
    clean_text_module u (some "None") = u ∧
    clean_text_module u (some "NaN") = u ∧
    clean_text_module u (some "<NA>") = u ∧
    clean_text_module u (some "N/A") = u ∧
    clean_text_module "Ukjent" none = "Ukjent" ∧
    clean_text_dashboard u (some "") = u ∧
    clean_text_dashboard u (some "nan") = u ∧
    clean_text_dashboard u (some "None") = u ∧
    clean_text_dashboard u (some "NaN") = u ∧
    clean_text_kunder = clean_text_dashboard :=
  ⟨rfl, rfl, rfl, rfl, rfl, rfl, rfl, rfl, rfl, rfl, rfl, rfl⟩

/-- C9: the trend helper classifies a delta against the caller-supplied
non-negative threshold: strictly above `eps` gives the up arrow colored
green exactly when increase-is-good, strictly below `-eps` the down arrow
with the inverse coloring, and everything with `|delta| ≤ eps` the neutral
gray arrow. The threshold is a parameter of the function, supplied
per metric by the call sites (0.01, 0.2 and 0.05 in the source). -/
theorem C9_trend_threshold (delta eps : ℚ) (good : Bool) (heps : 0 ≤ eps) :
    (delta > eps → trend_arrow_color delta good eps =
      ("↑", if good then "green" else "red")) ∧
    (delta < -eps → trend_arrow_color delta good eps =
      ("↓", if good then "red" else "green")) ∧
    (|delta| ≤ eps → trend_arrow_color delta good eps = ("→", "gray")) := by
  unfold trend_arrow_color
  refine ⟨fun h => by rw [if_pos h], fun h => ?_, fun h => ?_⟩
  · rw [if_neg (by linarith), if_pos h]
  · obtain ⟨h1, h2⟩ := abs_le.mp h
    rw [if_neg (by linarith), if_neg (by linarith)]

/-- Witness for C9 at concrete deltas on both sides of the threshold. -/
theorem C9_trend_threshold_witness :
    trend_arrow_color (3 / 10) true (1 / 5) = ("↑", "green") ∧
    trend_arrow_color (-3 / 10) false (1 / 5) = ("↓", "green") ∧
    trend_arrow_color (1 / 10) true (1 / 5) = ("→", "gray") :=
  ⟨(C9_trend_threshold (3 / 10) (1 / 5) true (by norm_num)).1 (by norm_num),
   (C9_trend_threshold (-3 / 10) (1 / 5) false (by norm_num)).2.1 (by norm_num),
   (C9_trend_threshold (1 / 10) (1 / 5) true (by norm_num)).2.2
     (by rw [abs_of_nonneg] <;> norm_num)⟩

/-- C10: a ticket of the raw Record Table survives the shared SPS
pre-filter exactly when its stripped, casefolded priority differs from
"sps" — so a priority of "sps" in any spelling is excluded and every other
priority (including a missing one, which renders as "<NA>") is kept — and
the views, which consume only the filtered table, never see an
SPS-priority ticket (shown here for the Inhouse view's selection). -/
theorem C10_sps_prefilter (raw : List Ticket) (t : Ticket) :
    (t ∈ sps_filter raw ↔ t ∈ raw ∧ pyCaseFold (pyStrip t.priority) ≠ "sps") ∧
    (t ∈ inhouse (sps_filter raw) → pyCaseFold (pyStrip t.priority) ≠ "sps") := by
  constructor
  · simp [sps_filter, List.mem_filter, bne_iff_ne]
  · intro h
    simp only [inhouse] at h
    have h1 := (List.mem_filter.mp h).1
    simp only [sps_filter] at h1
    simpa [bne_iff_ne] using (List.mem_filter.mp h1).2

/-- Witness for C10: a ticket with missing priority (rendered "<NA>") is
kept by the filter. -/
theorem C10_sps_prefilter_witness :
    (⟨"s", "b", "t", "<NA>", "n", none, none, none⟩ : Ticket) ∈
      sps_filter [⟨"s", "b", "t", "<NA>", "n", none, none, none⟩] :=
  ((C10_sps_prefilter _ _).1).mpr ⟨List.mem_singleton.mpr rfl, by decide⟩

/-- C2 counterexample: the cell "20000" — a number at the lower endpoint of
the claimed closed interval [20000, 60000] — is not converted by the serial
fallback: the source requires strictly more than 20000 (`num > 20000`), so
the cell cleans to missing instead of a date, even though it fails
day-first parsing and reads as the number 20000. -/
theorem C2_counterexample_closed_endpoint :
    clean_date_cell (some "20000") = none ∧
    parseDayfirst (scrubDateText (cellStr (some "20000"))) = none ∧
    parseNumber (scrubDateText (cellStr (some "20000"))) = some 20000 :=
  ⟨by decide, by decide, by decide⟩

/-- C2 amended: for every raw date cell whose scrubbed text fails day-first
parsing but reads as a number `n` strictly between 20000 and 60000
(endpoints excluded), date cleaning produces the timestamp 1899-12-30 plus
`n` days — on this timeline the rational `n` itself — and the calendar day
of that timestamp gives back `n` to within the same calendar day. -/
theorem C2_serial_fallback (cell : Option String) (n : ℚ)
    (hdf : parseDayfirst (scrubDateText (cellStr cell)) = none)
    (hnum : parseNumber (scrubDateText (cellStr cell)) = some n)
    (hlo : 20000 < n) (hhi : n < 60000) :
    clean_date_cell cell = some n ∧
    ((tsDay n : ℚ) ≤ n ∧ n < (tsDay n : ℚ) + 1) := by
  have htok : ¬(scrubDateText (cellStr cell) = "" ∨
      scrubDateText (cellStr cell) = "nan" ∨
      scrubDateText (cellStr cell) = "None" ∨
      scrubDateText (cellStr cell) = "NaN" ∨
      scrubDateText (cellStr cell) = "<NA>") := by
    have e1 : parseNumber "" = none := by decide
    have e2 : parseNumber "nan" = none := by decide
    have e3 : parseNumber "None" = none := by decide
    have e4 : parseNumber "NaN" = none := by decide
    have e5 : parseNumber "<NA>" = none := by decide
    rintro (h | h | h | h | h) <;> rw [h] at hnum <;>
      simp only [e1, e2, e3, e4, e5] at hnum <;>
      exact Option.noConfusion hnum
  refine ⟨?_, Int.floor_le n, Int.lt_floor_add_one n⟩
  unfold clean_date_cell
  rw [if_neg htok, hdf, hnum]
  simp [hlo, hhi]

/-- Witness for C2 at the specification's own scenario: the serial cell
"45292" cleans to the timestamp of 2024-01-01. -/
theorem C2_serial_fallback_witness :
    clean_date_cell (some "45292") = some 45292 ∧
    serialOfYMD 2024 1 1 = 45292 :=
  ⟨(C2_serial_fallback (some "45292") 45292 (by decide) (by decide)
      (by norm_num) (by norm_num)).1, by decide⟩

/-- Helper for C6: the source's filter-map-filter pipeline over a ticket
list produces exactly the specification's valid per-ticket TAT values. -/
theorem tat_pipeline_eq (rows : List Ticket) (endDay : ℚ) :
    ((rows.filter fun t => t.receivedDate.isSome).map
        (fun t => (t.repairDate.getD endDay) - t.receivedDate.getD 0)).filter
        (fun x => decide (0 ≤ x)) =
      rows.filterMap (validTat endDay) := by
  induction rows with
  | nil => rfl
  | cons t rest ih =>
    cases hr : t.receivedDate with
    | none => simp [List.filter_cons, List.filterMap_cons, hr, validTat, ih]
    | some r =>
      cases hp : t.repairDate with
      | none =>
        by_cases h0 : r ≤ endDay
        · simp [List.filter_cons, List.filterMap_cons, hr, hp, validTat, ih,
            h0, sub_nonneg]
        · simp [List.filter_cons, List.filterMap_cons, hr, hp, validTat, ih,
            h0, sub_nonneg]
      | some p =>
        by_cases h0 : r ≤ p
        · simp [List.filter_cons, List.filterMap_cons, hr, hp, validTat, ih,
            h0, sub_nonneg]
        · simp [List.filter_cons, List.filterMap_cons, hr, hp, validTat, ih,
            h0, sub_nonneg]

/-- Helper for C6: over a subset whose rows all carry both dates, the
closed-case pipeline produces the same valid TAT values (the as-of instant
is never consulted). -/
theorem tat_closed_pipeline_eq (rows : List Ticket) (endDay : ℚ)
    (h : ∀ t ∈ rows, t.receivedDate.isSome ∧ t.repairDate.isSome) :
    (rows.map fun t => t.repairDate.getD 0 - t.receivedDate.getD 0).filter
        (fun x => decide (0 ≤ x)) =
      rows.filterMap (validTat endDay) := by
  induction rows with
  | nil => rfl
  | cons t rest ih =>
    obtain ⟨hrec, hrep⟩ := h t (List.mem_cons_self t rest)
    obtain ⟨r, hr⟩ := Option.isSome_iff_exists.mp hrec
    obtain ⟨p, hp⟩ := Option.isSome_iff_exists.mp hrep
    have ih' := ih fun t ht => h t (List.mem_cons_of_mem _ ht)
    by_cases h0 : r ≤ p
    · simp [List.map_cons, List.filter_cons, List.filterMap_cons, hr, hp,
        validTat, ih', h0, sub_nonneg]
    · simp [List.map_cons, List.filter_cons, List.filterMap_cons, hr, hp,
        validTat, ih', h0, sub_nonneg]

/-- C6: the mean-TAT helper equals the specification's mean: the
arithmetic mean over exactly the tickets with a received date and a
non-negative TAT (repair minus received when closed, as-of minus received
when open); a ticket with no received date or a negative TAT counts in
neither numerator nor denominator, and the result is 0 (never undefined,
never an error) when no valid value remains. The closed-case helper
`_avg_tat_closed_days` agrees on any subset whose rows carry both dates. -/
theorem C6_mean_tat (rows : List Ticket) (endDay : ℚ) :
    avg_tat_days rows endDay = meanTatSpec rows endDay ∧
    ((∀ t ∈ rows, t.receivedDate.isSome ∧ t.repairDate.isSome) →
      avg_tat_closed_days rows = meanTatSpec rows endDay) := by
  constructor
  · by_cases hrows : rows.isEmpty
    · rw [List.isEmpty_iff] at hrows
      subst hrows
      rfl
    · by_cases hd : (rows.filter fun t => t.receivedDate.isSome).isEmpty
      · have hv : rows.filterMap (validTat endDay) = [] := by
          rw [← tat_pipeline_eq rows endDay, List.isEmpty_iff.mp hd]
          rfl
        simp [avg_tat_days, meanTatSpec, hrows, hd, hv]
      · simp [avg_tat_days, meanTatSpec, hrows, hd, tat_pipeline_eq]
  · intro h
    by_cases hrows : rows.isEmpty
    · rw [List.isEmpty_iff] at hrows
      subst hrows
      rfl
    · simp [avg_tat_closed_days, meanTatSpec, hrows,
        tat_closed_pipeline_eq rows endDay h]

/-- Witness for C6's closed-case branch at a concrete subset. -/
theorem C6_mean_tat_witness :
    avg_tat_days [(⟨"s", "b", "t", "p", "n", none, some 10, some 4⟩ : Ticket),
        ⟨"s", "b", "t", "p", "n", none, none, some 2⟩] 12 =
      meanTatSpec [(⟨"s", "b", "t", "p", "n", none, some 10, some 4⟩ : Ticket),
        ⟨"s", "b", "t", "p", "n", none, none, some 2⟩] 12 ∧
    avg_tat_closed_days [(⟨"s", "b", "t", "p", "n", none, some 10, some 4⟩ : Ticket)] =
      meanTatSpec [(⟨"s", "b", "t", "p", "n", none, some 10, some 4⟩ : Ticket)] 12 :=
  ⟨(C6_mean_tat _ 12).1, (C6_mean_tat _ 12).2 (by decide)⟩

/-- The day `latestBdayLE` steps to is a business day. -/
theorem latestBdayLE_isBusinessDay (d : ℤ) : isBusinessDay (latestBdayLE d) := by
  unfold isBusinessDay latestBdayLE weekday
  split_ifs <;> omega

/-- `latestBdayLE` never moves forward. -/
theorem latestBdayLE_le (d : ℤ) : latestBdayLE d ≤ d := by
  unfold latestBdayLE
  split_ifs <;> omega

/-- `latestBdayLE d` is the greatest business day at most `d`. -/
theorem le_latestBdayLE (d x : ℤ) (hx : isBusinessDay x) (hle : x ≤ d) :
    x ≤ latestBdayLE d := by
  unfold isBusinessDay weekday at hx
  unfold latestBdayLE weekday
  split_ifs <;> omega

/-- The descending business-day chain has the requested length. -/
theorem lbdDesc_length (n : ℕ) : ∀ e, (lbdDesc e n).length = n := by
  induction n with
  | zero => intro e; rfl
  | succ n ih => intro e; simp [lbdDesc, ih]

/-- Every day of the chain is a business day. -/
theorem lbdDesc_business (n : ℕ) : ∀ e, ∀ d ∈ lbdDesc e n, isBusinessDay d := by
  induction n with
  | zero => intro e d hd; simp [lbdDesc] at hd
  | succ n ih =>
    intro e d hd
    simp only [lbdDesc, List.mem_cons] at hd
    rcases hd with h | h
    · subst h; exact latestBdayLE_isBusinessDay e
    · exact ih _ _ h

/-- Every day of the chain is at most the end parameter. -/
theorem lbdDesc_le (n : ℕ) : ∀ e, ∀ d ∈ lbdDesc e n, d ≤ e := by
  induction n with
  | zero => intro e d hd; simp [lbdDesc] at hd
  | succ n ih =>
    intro e d hd
    simp only [lbdDesc, List.mem_cons] at hd
    have hle := latestBdayLE_le e
    rcases hd with h | h
    · omega
    · have := ih _ _ h
      omega

/-- The chain is strictly descending. -/
theorem lbdDesc_pairwise (n : ℕ) : ∀ e, (lbdDesc e n).Pairwise (fun a b => b < a) := by
  induction n with
  | zero => intro e; exact List.Pairwise.nil
  | succ n ih =>
    intro e
    refine List.Pairwise.cons ?_ (ih _)
    intro d hd
    have := lbdDesc_le n _ d hd
    omega

/-- The chain for `n + m` days splits into the chain for `n` days followed
by the chain for `m` more days continuing from the seed. -/
theorem lbdDesc_add (m : ℕ) :
    ∀ (n : ℕ) (e : ℤ), lbdDesc e (n + m) = lbdDesc e n ++ lbdDesc (lbdSeed e n) m := by
  intro n
  induction n with
  | zero => intro e; simp [lbdDesc, lbdSeed]
  | succ n ih =>
    intro e
    have hnm : n + 1 + m = (n + m) + 1 := by omega
    rw [hnm]
    show latestBdayLE e :: lbdDesc (latestBdayLE e - 1) (n + m) = _
    rw [ih (latestBdayLE e - 1)]
    rfl

/-- The seed after a nonempty chain is the day before the chain's last
(oldest) element. -/
theorem lbdSeed_eq (n : ℕ) :
    ∀ e, lbdSeed e (n + 1) = ((lbdDesc e (n + 1)).getLast?).getD 0 - 1 := by
  induction n with
  | zero => intro e; rfl
  | succ n ih =>
    intro e
    have h2 : lbdSeed e (n + 1 + 1) = lbdSeed (latestBdayLE e - 1) (n + 1) := rfl
    rw [h2, ih (latestBdayLE e - 1)]
    have h1 : lbdDesc e (n + 1 + 1) =
        latestBdayLE e :: lbdDesc (latestBdayLE e - 1) (n + 1) := rfl
    rw [h1]
    have h3 : lbdDesc (latestBdayLE e - 1) (n + 1) =
        latestBdayLE (latestBdayLE e - 1) ::
          lbdDesc (latestBdayLE (latestBdayLE e - 1) - 1) n := rfl
    rw [h3, List.getLast?_cons_cons]

set_option maxRecDepth 4000 in
/-- C5: for every reference day, the 30-business-day window is a strictly
ascending list of exactly 30 Monday-to-Friday days (hence zero weekend
days — in particular when it ends on a Friday); the previous comparison
window likewise holds exactly 30 business days; it ends on the business
day immediately preceding the current window's first day (no business day
lies strictly between the two windows); and the two windows concatenate to
the 60-business-day window ending at the same reference day. -/
theorem C5_business_day_windows (e : ℤ) :
    (last_business_days e 30).length = 30 ∧
    (∀ d ∈ last_business_days e 30, isBusinessDay d) ∧
    (last_business_days e 30).Pairwise (· < ·) ∧
    (prev_business_days e 30).length = 30 ∧
    (∀ d ∈ prev_business_days e 30, isBusinessDay d) ∧
    (∃ pe, (prev_business_days e 30).getLast? = some pe ∧ isBusinessDay pe ∧
      pe < (last_business_days e 30).headD 0 ∧
      (∀ x, pe < x → x < (last_business_days e 30).headD 0 → ¬ isBusinessDay x)) ∧
    prev_business_days e 30 ++ last_business_days e 30 = last_business_days e 60 := by
  have hfirst : (last_business_days e 30).headD 0 =
      ((lbdDesc e 30).getLast?).getD 0 := by
    unfold last_business_days
    rw [List.headD_eq_head?, List.head?_reverse]
  refine ⟨?_, ?_, ?_, ?_, ?_, ?_, ?_⟩
  · simp [last_business_days, lbdDesc_length]
  · intro d hd
    exact lbdDesc_business 30 e d (List.mem_reverse.mp hd)
  · rw [last_business_days, List.pairwise_reverse]
    exact lbdDesc_pairwise 30 e
  · simp [prev_business_days, last_business_days, lbdDesc_length]
  · intro d hd
    exact lbdDesc_business 30 _ d (List.mem_reverse.mp hd)
  · refine ⟨latestBdayLE ((last_business_days e 30).headD 0 - 1), ?_, ?_, ?_, ?_⟩
    · unfold prev_business_days last_business_days
      rw [List.getLast?_reverse]
      rfl
    · exact latestBdayLE_isBusinessDay _
    · have := latestBdayLE_le ((last_business_days e 30).headD 0 - 1)
      omega
    · intro x h1 h2 hx
      have := le_latestBdayLE ((last_business_days e 30).headD 0 - 1) x hx (by omega)
      omega
  · have h60 : lbdDesc e 60 = lbdDesc e 30 ++ lbdDesc (lbdSeed e 30) 30 :=
      lbdDesc_add 30 30 e
    have hseed : lbdSeed e 30 = ((lbdDesc e 30).getLast?).getD 0 - 1 :=
      lbdSeed_eq 29 e
    unfold prev_business_days
    rw [hfirst]
    unfold last_business_days
    rw [← List.reverse_append, h60, hseed]

/-- Witness for C5 at a Friday reference day (45289 is Friday,
2023-12-29). -/
theorem C5_business_day_windows_witness :
    (last_business_days 45289 30).length = 30 ∧
    (∀ d ∈ last_business_days 45289 30, isBusinessDay d) ∧
    (prev_business_days 45289 30).length = 30 :=
  ⟨(C5_business_day_windows 45289).1, (C5_business_day_windows 45289).2.1,
   (C5_business_day_windows 45289).2.2.2.1⟩

/-- Helper: when `x` satisfies the predicate and nothing after it does,
the last filtered element is `x`. -/
theorem filter_getLast_split (l1 l2 : List String) (x : String) (p : String → Bool)
    (hpx : p x = true) (hl2 : ∀ a ∈ l2, p a = false) :
    ((l1 ++ x :: l2).filter p).getLast? = some x := by
  rw [List.filter_append]
  have h2 : (x :: l2).filter p = x :: l2.filter p := by
    simp [List.filter_cons, hpx]
  have h2' : l2.filter p = [] :=
    List.filter_eq_nil_iff.mpr (fun a ha => by simp [hl2 a ha])
  rw [h2, h2']
  exact List.getLast?_concat _

/-- Helper: renaming every occurrence of a label that occurs exactly once
replaces just that position. -/
theorem map_rename_split (l1 l2 : List String) (x w : String)
    (h1 : x ∉ l1) (h2 : x ∉ l2) :
    (l1 ++ x :: l2).map (fun h => if h = x then w else h) = l1 ++ w :: l2 := by
  rw [List.map_append, List.map_cons, if_pos rfl]
  have e1 : l1.map (fun h => if h = x then w else h) = l1 := by
    calc l1.map (fun h => if h = x then w else h) = l1.map id := by
          apply List.map_congr_left
          intro a ha
          have : a ≠ x := fun hax => h1 (hax ▸ ha)
          simp [this]
      _ = l1 := List.map_id l1
  have e2 : l2.map (fun h => if h = x then w else h) = l2 := by
    calc l2.map (fun h => if h = x then w else h) = l2.map id := by
          apply List.map_congr_left
          intro a ha
          have : a ≠ x := fun hax => h2 (hax ▸ ha)
          simp [this]
      _ = l2 := List.map_id l2
  rw [e1, e2]

/-- Helper: column selection finds the first occurrence of a label, here
the position right after a prefix free of it. -/
theorem findIdx_append_cons_self (l2 : List String) (w : String) :
    ∀ l1 : List String, w ∉ l1 →
      (l1 ++ w :: l2).findIdx (fun h => h == w) = l1.length := by
  intro l1
  induction l1 with
  | nil => intro _; simp [List.findIdx_cons]
  | cons a t ih =>
    intro hw
    have ha : a ≠ w := fun h => hw (h ▸ List.mem_cons_self a t)
    have ht : w ∉ t := fun h => hw (List.mem_cons_of_mem a h)
    simp [List.findIdx_cons, beq_eq_false_iff_ne.mpr ha, ih ht]

/-- C8 counterexample: the two distinct source headers "SERVICE STATUS"
and "service status" both normalize case-insensitively to the canonical
"Service status"; building the Record Table binds the canonical column to
the SECOND one — the assembled ticket carries the second column's data "B",
not the first column's "A". -/
theorem C8_counterexample_first_binding :
    fetch_data [["SERVICE STATUS", "service status"], ["A", "B"]] =
      Except.ok [⟨"B", "<NA>", "<NA>", "<NA>", "<NA>", none, none, none⟩] := rfl

/-- C8 amended: write the (normalized) header row as `l1 ++ x :: l2` where
`x` case-insensitively matches the canonical name `w`, nothing in `l2`
matches it, `x` occurs nowhere else and `w` itself is not a header (so any
further matches sit in `l1`). The rename loop binds the canonical name to
`x` — the LAST match in header order, not the first: `x`'s position is
renamed to `w`, every `l1` column (in particular an earlier match) keeps
its old header, and column selection for `w` lands on `x`'s position. -/
theorem C8_last_match_wins (l1 l2 : List String) (x w : String)
    (hw : w ∉ l1 ++ x :: l2)
    (hmx : matchKey x w)
    (hlast : ∀ c ∈ l2, ¬ matchKey c w)
    (hx1 : x ∉ l1) (hx2 : x ∉ l2) :
    renameStep (l1 ++ x :: l2) w = l1 ++ w :: l2 ∧
    (l1 ++ w :: l2).findIdx (fun h => h == w) = l1.length := by
  constructor
  · have hlook : colsNormLookup (l1 ++ x :: l2) (pyCaseFold w) = some x := by
      unfold colsNormLookup
      apply filter_getLast_split
      · exact beq_iff_eq.mpr hmx
      · intro a ha
        exact beq_eq_false_iff_ne.mpr (hlast a ha)
    unfold renameStep
    rw [if_neg hw, hlook]
    exact map_rename_split l1 l2 x w hx1 hx2
  · have hw1 : w ∉ l1 := fun h => hw (List.mem_append_left _ h)
    exact findIdx_append_cons_self l2 w l1 hw1

/-- Witness for C8 at the concrete ambiguous header row. -/
theorem C8_last_match_wins_witness :
    renameStep ["SERVICE STATUS", "service status"] "Service status" =
      ["SERVICE STATUS", "Service status"] ∧
    (["SERVICE STATUS", "Service status"] : List String).findIdx
      (fun h => h == "Service status") = 1 := by
  have h := C8_last_match_wins ["SERVICE STATUS"] [] "service status"
    "Service status" (by decide) (by decide)
    (fun c hc => absurd hc (by simp)) (by decide) (by decide)
  exact ⟨h.1, h.2⟩

/-- Helper: binding a succeeded `Except` computation just applies the
continuation. -/
theorem ok_bind {e a b : Type} (x : a) (f : a → Except e b) :
    (Except.ok x >>= f) = f x := rfl

/-- Helper: one rename step never changes the number of headers. -/
theorem renameStep_length (H : List String) (w : String) :
    (renameStep H w).length = H.length := by
  unfold renameStep
  split_ifs with h
  · rfl
  · cases hlook : colsNormLookup H (pyCaseFold w) with
    | none => rfl
    | some old => simp [List.length_map]

/-- Helper: the rename loop never changes the number of headers. -/
theorem renameHeaders_length (H : List String) :
    (renameHeaders H).length = H.length := by
  unfold renameHeaders
  generalize expectedCols = ws
  induction ws generalizing H with
  | nil => rfl
  | cons w ws ih =>
    rw [List.foldl_cons, ih (renameStep H w), renameStep_length]

/-- Helper: reading any position of an all-missing column gives missing. -/
theorem getD_none_of_all {a : Type} (l : List (Option a)) (k : ℕ)
    (h : ∀ x ∈ l, x = none) : l.getD k none = none := by
  induction l generalizing k with
  | nil => cases k <;> rfl
  | cons x t ih =>
    cases k with
    | zero => exact h x (List.mem_cons_self x t)
    | succ k => exact ih k (fun y hy => h y (List.mem_cons_of_mem x hy))

/-- Helper: finding a label absent from a prefix skips past the prefix. -/
theorem findIdx_append_of_not_mem (l1 l2 : List String) (w : String) (h : w ∉ l1) :
    (l1 ++ l2).findIdx (fun x => x == w) = l1.length + l2.findIdx (fun x => x == w) := by
  induction l1 with
  | nil => simp
  | cons c t ih =>
    have hc : c ≠ w := fun hh => h (hh ▸ List.mem_cons_self c t)
    have ht : w ∉ t := fun hh => h (List.mem_cons_of_mem c hh)
    simp only [List.cons_append, List.findIdx_cons, beq_eq_false_iff_ne.mpr hc,
      cond_false, ih ht, List.length_cons]
    omega

/-- Helper: reading past an appended prefix reads the suffix. -/
theorem getD_append_self {a : Type} (l1 l2 : List a) (d : a) (k : ℕ) :
    (l1 ++ l2).getD (l1.length + k) d = l2.getD k d := by
  induction l1 with
  | nil => simp
  | cons x t ih =>
    have hl : (x :: t).length + k = (t.length + k) + 1 := by
      simp only [List.length_cons]
      omega
    rw [hl]
    exact ih

/-- Helper: after synthesis every expected column label occurs exactly
once, provided renaming left it at most once. -/
theorem count_after_synth (H' : List String) (w : String)
    (hw : w ∈ expectedCols) (hc : H'.count w ≤ 1) :
    ((H' ++ expectedCols.filter fun c => decide (c ∉ H')).count w) = 1 := by
  rw [List.count_append]
  by_cases hmem : w ∈ H'
  · have h1 : 0 < H'.count w := List.count_pos_iff.mpr hmem
    have h2 : (expectedCols.filter fun c => decide (c ∉ H')).count w = 0 := by
      rw [List.count_eq_zero]
      intro hmem2
      have := (List.mem_filter.mp hmem2).2
      simp only [decide_eq_true_eq] at this
      exact this hmem
    omega
  · have h1 : H'.count w = 0 := List.count_eq_zero.mpr hmem
    have hnodup : (expectedCols.filter fun c => decide (c ∉ H')).Nodup :=
      List.Nodup.filter _ (by decide)
    have hmemf : w ∈ expectedCols.filter fun c => decide (c ∉ H') :=
      List.mem_filter.mpr ⟨hw, by simpa using hmem⟩
    have h2 := List.count_eq_one_of_mem hnodup hmemf
    omega

/-- Helper: the header list after synthesis, spelled out. -/
theorem addMissingCols_headers (f : Frame) :
    (addMissingCols f).headers =
      f.headers ++ expectedCols.filter (fun c => decide (c ∉ f.headers)) := rfl

/-- Helper: the rows after synthesis, spelled out. -/
theorem addMissingCols_rows (f : Frame) :
    (addMissingCols f).rows = f.rows.map (fun r =>
      r ++ (expectedCols.filter (fun c => decide (c ∉ f.headers))).map
        (fun _ => (none : Option String))) := rfl

/-- Helper: dropping empty rows keeps the headers. -/
theorem dropEmptyRows_headers (f : Frame) : (dropEmptyRows f).headers = f.headers := rfl

/-- Helper: the surviving rows, spelled out. -/
theorem dropEmptyRows_rows (f : Frame) :
    (dropEmptyRows f).rows =
      (f.rows.map fun r => r.map fun c => if c = some "" then none else c).filter
        (fun r => !(r.all fun c => c.isNone)) := rfl

/-- Helper: with exactly one matching label, column selection succeeds and
returns that column. -/
theorem getSeries_ok (f : Frame) (name : String) (h : f.headers.count name = 1) :
    getSeries f name =
      Except.ok (f.rows.map fun r =>
        r.getD (f.headers.findIdx fun x => x == name) none) := by
  unfold getSeries
  rw [if_pos h]

/-- C3 counterexample: an extract whose header row carries the expected
column "Service status" twice builds a frame with duplicate labels; the
text-cleaning loop's column selection then fails (in pandas, `df[col]`
yields a DataFrame and the `.str` accessor raises an `AttributeError`), so
building the Record Table from this extract does error. -/
theorem C3_counterexample_duplicate_headers :
    fetch_data [["Service status", "Service status"], ["a", "b"]] =
      Except.error "AttributeError: .str on duplicate columns Service status" := rfl

/-- C3 amended: building the Record Table from a rectangular extract in
which no expected canonical column ends up with duplicate header labels
never errors; an expected column absent even after the normalized
case-insensitive rename is synthesized as an all-missing column (shown for
the repair-date column: every assembled ticket's repair date is missing);
and a date cell that neither parses day-first nor qualifies as a plausible
spreadsheet serial cleans to missing, never to an error. -/
theorem C3_build_never_errors (hr : List String) (dataRows : List (List String))
    (hrect : ∀ r ∈ dataRows, r.length = hr.length)
    (huniq : ∀ w ∈ expectedCols, (renameHeaders (hr.map normHeader)).count w ≤ 1) :
    (∃ ts, fetch_data (hr :: dataRows) = Except.ok ts ∧
      ("Service repair date" ∉ renameHeaders (hr.map normHeader) →
        ∀ t ∈ ts, t.repairDate = none)) ∧
    (∀ c : Option String,
      parseDayfirst (scrubDateText (cellStr c)) = none →
      (∀ n, parseNumber (scrubDateText (cellStr c)) = some n →
        ¬(20000 < n ∧ n < 60000)) →
      clean_date_cell c = none) := by
  constructor
  · have hcond : (dataRows.all fun r => decide (r.length = (hr.map normHeader).length)) = true := by
      rw [List.all_eq_true]
      intro r hrr
      rw [decide_eq_true_eq, List.length_map]
      exact hrect r hrr
    have hmk : makeFrame (hr.map normHeader) dataRows =
        Except.ok ⟨hr.map normHeader, dataRows.map (fun r => r.map some)⟩ := by
      unfold makeFrame
      rw [if_pos hcond]
    simp only [fetch_data]
    rw [hmk]
    simp only [ok_bind]
    set F := addMissingCols
      ⟨renameHeaders (dropEmptyRows ⟨hr.map normHeader, dataRows.map fun r => r.map some⟩).headers,
       (dropEmptyRows ⟨hr.map normHeader, dataRows.map fun r => r.map some⟩).rows⟩ with hF
    have hdh : (dropEmptyRows ⟨hr.map normHeader, dataRows.map fun r => r.map some⟩).headers =
        hr.map normHeader := dropEmptyRows_headers _
    have hF_headers : F.headers = renameHeaders (hr.map normHeader) ++
        expectedCols.filter (fun c => decide (c ∉ renameHeaders (hr.map normHeader))) := by
      rw [hF, addMissingCols_headers]
      dsimp only
      rw [hdh]
    have hgs : ∀ w ∈ expectedCols, getSeries F w =
        Except.ok (F.rows.map fun r =>
          r.getD (F.headers.findIdx fun x => x == w) none) := by
      intro w hw
      refine getSeries_ok F w ?_
      rw [hF_headers]
      exact count_after_synth _ w hw (huniq w hw)
    rw [hgs "Service status date" (by decide), hgs "Service repair date" (by decide),
      hgs "Service date product received" (by decide), hgs "Service status" (by decide),
      hgs "Product brand" (by decide), hgs "Service technician" (by decide),
      hgs "Service priority" (by decide), hgs "Service number" (by decide)]
    simp only [ok_bind]
    refine ⟨_, rfl, ?_⟩
    intro habs t ht
    obtain ⟨i, hi, rfl⟩ := List.mem_map.mp ht
    show (clean_date_series (F.rows.map fun r =>
      r.getD (F.headers.findIdx fun x => x == "Service repair date") none)).getD i none = none
    apply getD_none_of_all
    intro x hx
    simp only [clean_date_series] at hx
    rw [List.map_map] at hx
    obtain ⟨r, hrF, rfl⟩ := List.mem_map.mp hx
    have hidx : F.headers.findIdx (fun x => x == "Service repair date") =
        (renameHeaders (hr.map normHeader)).length +
        (expectedCols.filter
          (fun c => decide (c ∉ renameHeaders (hr.map normHeader)))).findIdx
          (fun x => x == "Service repair date") := by
      rw [hF_headers]
      exact findIdx_append_of_not_mem _ _ _ habs
    have hrows : F.rows = (dropEmptyRows
        ⟨hr.map normHeader, dataRows.map fun r => r.map some⟩).rows.map
        (fun r => r ++ (expectedCols.filter
          (fun c => decide (c ∉ renameHeaders (hr.map normHeader)))).map
          (fun _ => (none : Option String))) := by
      rw [hF, addMissingCols_rows]
      dsimp only
      rw [hdh]
    rw [hrows] at hrF
    obtain ⟨r0, hr0, rfl⟩ := List.mem_map.mp hrF
    have hr0len : r0.length = hr.length := by
      have hmemmap : r0 ∈ (dataRows.map fun r => r.map some).map
          (fun r => r.map fun c => if c = some "" then none else c) := by
        have hmm := hr0
        rw [dropEmptyRows_rows] at hmm
        dsimp only at hmm
        exact List.mem_of_mem_filter hmm
      rw [List.map_map] at hmemmap
      obtain ⟨r2, hr2, rfl⟩ := List.mem_map.mp hmemmap
      simp only [Function.comp, List.length_map]
      exact hrect r2 hr2
    have hHlen : (renameHeaders (hr.map normHeader)).length = r0.length := by
      rw [renameHeaders_length, List.length_map, hr0len]
    simp only [Function.comp]
    rw [hidx, hHlen, getD_append_self]
    have hpadnone : ∀ y ∈ (expectedCols.filter
        (fun c => decide (c ∉ renameHeaders (hr.map normHeader)))).map
        (fun _ => (none : Option String)), y = (none : Option String) := by
      intro y hy
      obtain ⟨z, hz, rfl⟩ := List.mem_map.mp hy
      rfl
    rw [getD_none_of_all _ _ hpadnone]
    rfl
  · intro c hdf hnum
    unfold clean_date_cell
    by_cases htok : (scrubDateText (cellStr c) = "" ∨
        scrubDateText (cellStr c) = "nan" ∨
        scrubDateText (cellStr c) = "None" ∨
        scrubDateText (cellStr c) = "NaN" ∨
        scrubDateText (cellStr c) = "<NA>")
    · rw [if_pos htok]
    · rw [if_neg htok, hdf]
      cases hn : parseNumber (scrubDateText (cellStr c)) with
      | none => rfl
      | some n => simp [hnum n hn]

/-- Witness for C3 at a concrete one-column extract: the build succeeds
and the absent repair-date column is synthesized all-missing. -/
theorem C3_build_never_errors_witness :
    ∃ ts, fetch_data [["Service status"], ["Innlevert"]] = Except.ok ts ∧
      ("Service repair date" ∉ renameHeaders (["Service status"].map normHeader) →
        ∀ t ∈ ts, t.repairDate = none) :=
  (C3_build_never_errors ["Service status"] [["Innlevert"]]
    (by decide) (by decide)).1

end RetailRepair
